import Mathlib

/-!
Verification of the CSV merge/normalization pipeline of `src/merge.py`
(repository b25-local-politics).

The pipeline is embedded shallowly:
  * cells are `Option String` (`none` models a pandas missing value / NaN / NaT);
  * a pandas `DataFrame` is a `Table` (column names plus row-major cells) or,
    where the code iterates over columns, a list of `Column`s;
  * the regular expressions of `merge.py` are compiled by hand to functions on
    `List Char`; `\d` is modelled as an ASCII digit and `.strip()` as removal of
    leading and trailing whitespace characters, which is faithful on the ASCII
    and Japanese text that the pipeline handles;
  * `pd.read_csv` failures are modelled with `Except`.
-/

namespace Merge

/-- Whitespace as removed by Python's `str.strip()` (the ASCII part: space, tab,
newline, carriage return, vertical tab, form feed). -/
def isWs (c : Char) : Bool :=
  c == ' ' || c == '\t' || c == '\n' || c == '\r' || c == Char.ofNat 11 || c == Char.ofNat 12

/-- Remove leading whitespace. -/
def lstrip (cs : List Char) : List Char := cs.dropWhile isWs

/-- Remove trailing whitespace. -/
def rstrip (cs : List Char) : List Char := (cs.reverse.dropWhile isWs).reverse

/-- Python's `str.strip()`: remove leading and trailing whitespace. -/
def pyStrip (cs : List Char) : List Char := rstrip (lstrip cs)

/-- Split a character list into its maximal digit prefix (what a greedy `\d*`
consumes) and the rest. -/
def spanDigits : List Char → List Char × List Char
  | [] => ([], [])
  | c :: cs =>
    if c.isDigit then
      let p := spanDigits cs
      (c :: p.1, p.2)
    else ([], c :: cs)

/-- Numeric value of a digit string, as `int()` computes it. -/
def digitsToNat (cs : List Char) : Nat :=
  cs.foldl (fun a c => a * 10 + (c.toNat - 48)) 0

/-- Python's `f"{n:02d}"` for a natural number: zero-pad to width two. -/
def pad2 (n : Nat) : String :=
  if n < 10 then "0" ++ Nat.repr n else Nat.repr n

/-- Python's `f"{n:04d}"` for a natural number: zero-pad to width four. -/
def pad4 (n : Nat) : String :=
  if n < 10 then "000" ++ Nat.repr n
  else if n < 100 then "00" ++ Nat.repr n
  else if n < 1000 then "0" ++ Nat.repr n
  else Nat.repr n

/-- The output format `f"{year:04d}-{month:02d}-{day:02d}"` of
`convert_japanese_date` (src/merge.py lines 30, 40, 50). -/
def fmtDate (y m d : Nat) : String :=
  pad4 y ++ "-" ++ pad2 m ++ "-" ++ pad2 d

/-- `re.match(r"(\d{4})年(\d+)月(?:(\d+)日)?", s)` of src/merge.py line 23-24:
anchored at the start, trailing text permitted, day optional (defaulting to 1
as at line 29). Returns the captured `(year, month, day)` numbers. -/
def matchKanji (cs : List Char) : Option (Nat × Nat × Nat) :=
  match spanDigits cs with
  | (ys, c1 :: r1) =>
    if c1 = '年' ∧ ys.length = 4 then
      match spanDigits r1 with
      | (ms, c2 :: r2) =>
        if c2 = '月' ∧ 1 ≤ ms.length then
          match spanDigits r2 with
          | (ds, c3 :: _) =>
            if c3 = '日' ∧ 1 ≤ ds.length then
              some (digitsToNat ys, digitsToNat ms, digitsToNat ds)
            else some (digitsToNat ys, digitsToNat ms, 1)
          | (_, []) => some (digitsToNat ys, digitsToNat ms, 1)
        else none
      | (_, []) => none
    else none
  | (_, []) => none

/-- `re.match(r"(\d{4})/(\d+)/(\d+)", s)` of src/merge.py lines 33-34: anchored
at the start, trailing text permitted. -/
def matchSlash (cs : List Char) : Option (Nat × Nat × Nat) :=
  match spanDigits cs with
  | (ys, c1 :: r1) =>
    if c1 = '/' ∧ ys.length = 4 then
      match spanDigits r1 with
      | (ms, c2 :: r2) =>
        if c2 = '/' ∧ 1 ≤ ms.length then
          match spanDigits r2 with
          | (ds, _) =>
            if 1 ≤ ds.length then some (digitsToNat ys, digitsToNat ms, digitsToNat ds)
            else none
        else none
      | (_, []) => none
    else none
  | (_, []) => none

/-- `re.match(r"(\d{4})-(\d+)-(\d+)", s)` of src/merge.py lines 43-44: anchored
at the start, trailing text permitted. -/
def matchHyphen (cs : List Char) : Option (Nat × Nat × Nat) :=
  match spanDigits cs with
  | (ys, c1 :: r1) =>
    if c1 = '-' ∧ ys.length = 4 then
      match spanDigits r1 with
      | (ms, c2 :: r2) =>
        if c2 = '-' ∧ 1 ≤ ms.length then
          match spanDigits r2 with
          | (ds, _) =>
            if 1 ≤ ds.length then some (digitsToNat ys, digitsToNat ms, digitsToNat ds)
            else none
        else none
      | (_, []) => none
    else none
  | (_, []) => none

/-- `convert_japanese_date` of src/merge.py lines 7-53.  The input is an
`Option String` (`none` is a pandas missing value, caught by `pd.isna`).  A
missing or empty input yields `none`; otherwise the string is stripped and the
three patterns are tried in order; if none matches, the (stripped) string is
returned. -/
def convert_japanese_date (x : Option String) : Option String :=
  match x with
  | none => none
  | some s =>
    if s = "" then none
    else
      let t := pyStrip s.toList
      match matchKanji t with
      | some (y, m, d) => some (fmtDate y m d)
      | none =>
        match matchSlash t with
        | some (y, m, d) => some (fmtDate y m d)
        | none =>
          match matchHyphen t with
          | some (y, m, d) => some (fmtDate y m d)
          | none => some (String.mk t)

/-- Does `needle` occur as a contiguous substring of `hay`?  Python's
`keyword in str(col)`. -/
def containsSub (needle : List Char) : List Char → Bool
  | [] => needle.isEmpty
  | h :: hs => needle.isPrefixOf (h :: hs) || containsSub needle hs

/-- The regex search `.str.contains(r"(\d{4}年|\d{4}/|\d{4}-)")` of src/merge.py
lines 71-72: somewhere in the string, four consecutive digits are followed by
`年`, `/` or `-`. -/
def containsDatePat : List Char → Bool
  | a :: b :: c :: d :: e :: rest =>
    (a.isDigit && b.isDigit && c.isDigit && d.isDigit
      && (e == '年' || e == '/' || e == '-'))
      || containsDatePat (b :: c :: d :: e :: rest)
  | _ => false

/-- One pandas column: its name and its cell values in row order. -/
structure Column where
  name : String
  values : List (Option String)
deriving DecidableEq

/-- The keyword list of src/merge.py line 63. -/
def dateKeywords : List String := ["日付", "年月日", "日時", "date", "Date", "DATE"]

/-- The name-based test of src/merge.py line 63: does the column name contain
one of the date keywords? -/
def hasDateKeyword (name : String) : Bool :=
  dateKeywords.any (fun k => containsSub k.toList name.toList)

/-- `df[col].dropna().head(10)` of src/merge.py line 68: the first ten
non-missing values of a column. -/
def firstTenNonNull (vs : List (Option String)) : List String :=
  (vs.filterMap id).take 10

/-- The per-column decision of the loop body of src/merge.py lines 61-73: a
column is date-like when its name contains a keyword, or when some of its first
ten non-missing values contains the date-like substring pattern. -/
def colIsDate (c : Column) : Bool :=
  hasDateKeyword c.name
    || (firstTenNonNull c.values).any (fun s => containsDatePat s.toList)

/-- `detect_date_columns` of src/merge.py lines 55-75: the names of the
date-like columns, in column order. -/
def detect_date_columns (df : List Column) : List String :=
  (df.filter colIsDate).map Column.name

/-- A pandas DataFrame in row-major form: column names plus rows of cells. -/
structure Table where
  cols : List String
  rows : List (List (Option String))
deriving DecidableEq

/-- The column-wise view of a `Table`, as `detect_date_columns` iterates over
it; a cell beyond a ragged row's length reads as missing. -/
def tableColumns (t : Table) : List Column :=
  t.cols.enum.map (fun p => ⟨p.2, t.rows.map (fun r => r.getD p.1 none)⟩)

/-- The cell of row `r` at the column named `c`, when the row is laid out along
`cols`; `none` when the column is absent.  This is how `pd.concat` aligns the
rows of one input frame with the merged frame's column union. -/
def lookupCell : List String → List (Option String) → String → Option String
  | [], _, _ => none
  | _ :: _, [], _ => none
  | c' :: cs, v :: vs, c => if c' = c then v else lookupCell cs vs c

/-- One step of the column union formed by `pd.concat` (src/merge.py line
137): append the next table's columns not seen yet, in order. -/
def unionStep (acc : List String) (t : Table) : List String :=
  acc ++ t.cols.filter (fun c => decide (c ∉ acc))

/-- The column union formed by `pd.concat` (src/merge.py line 137), in order of
first appearance. -/
def unionCols (ts : List Table) : List String :=
  ts.foldl unionStep []

/-- `pd.concat(dfs, ignore_index=True)` of src/merge.py line 137: stack the
tables' rows in list order, aligning each row to the column union; a column
absent from a table reads as missing for that table's rows. -/
def concatTables (ts : List Table) : Table :=
  { cols := unionCols ts
    rows := (ts.map (fun t =>
      t.rows.map (fun r => (unionCols ts).map (fun c => lookupCell t.cols r c)))).flatten }

/-- Model of one cell's trip through `pd.to_datetime(col, errors="coerce")`
(src/merge.py lines 155-158) on this pipeline's value domain: a string of the
exact shape `YYYY-MM-DD` with a plausible month and day parses to a timestamp
(kept here as the same ISO string); any other value coerces to `NaT`, i.e.
missing. -/
def to_datetime_cell (v : Option String) : Option String :=
  match v with
  | none => none
  | some s =>
    match s.toList with
    | [y1, y2, y3, y4, h1, m1, m2, h2, d1, d2] =>
      if y1.isDigit = true ∧ y2.isDigit = true ∧ y3.isDigit = true ∧ y4.isDigit = true
          ∧ h1 = '-' ∧ h2 = '-'
          ∧ m1.isDigit = true ∧ m2.isDigit = true ∧ d1.isDigit = true ∧ d2.isDigit = true
          ∧ 1 ≤ digitsToNat [m1, m2] ∧ digitsToNat [m1, m2] ≤ 12
          ∧ 1 ≤ digitsToNat [d1, d2] ∧ digitsToNat [d1, d2] ≤ 31
      then some s else none
    | _ => none

/-- The full conversion applied to each cell of a detected date column:
`convert_japanese_date` (src/merge.py line 152) followed by the datetime
coercion (line 156). -/
def dateCell (v : Option String) : Option String :=
  to_datetime_cell (convert_japanese_date v)

/-- One row after the date-conversion loop of src/merge.py lines 150-158: cells
under a detected date column go through `dateCell`, all others are untouched. -/
def transformRow (cols dcols : List String) (r : List (Option String)) :
    List (Option String) :=
  (cols.zip r).map (fun p => if p.1 ∈ dcols then dateCell p.2 else p.2)

/-- The date-conversion step of src/merge.py lines 140-158 applied to a merged
table, given the list of detected date columns. -/
def applyDateConversion (t : Table) (dcols : List String) : Table :=
  { cols := t.cols, rows := t.rows.map (transformRow t.cols dcols) }

/-- One source file of a group: its parsed year and its table. -/
structure SFile where
  year : Nat
  table : Table
deriving DecidableEq

/-- Stable insertion of `a` into a list sorted ascending by `key` (before the
first strictly greater element), as Python's stable `sorted` would place it. -/
def insertByKey {α : Type} (key : α → Nat) (a : α) : List α → List α
  | [] => [a]
  | b :: bs => if key a < key b then a :: b :: bs else b :: insertByKey key a bs

/-- `sorted(files, key=lambda x: x["year"])` of src/merge.py line 127: stable
sort ascending by key. -/
def sortByKey {α : Type} (key : α → Nat) (l : List α) : List α :=
  l.foldr (insertByKey key) []

/-- The per-group body of `merge_csv_files` (src/merge.py lines 125-158) with
the defaults `convert_dates=True, date_columns=None`: sort the group's files
ascending by year, read their tables in that order, concatenate them, detect
date columns on the concatenated table, and convert those columns. -/
def mergeGroup (fs : List SFile) : Table :=
  let m := concatTables ((sortByKey SFile.year fs).map SFile.table)
  applyDateConversion m (detect_date_columns (tableColumns m))

/-- The concatenation stage of the per-group merge (src/merge.py lines 127 and
137) on its own: sort the group's files ascending by year and stack their
tables, before any date conversion. -/
def mergedRaw (fs : List SFile) : Table :=
  concatTables ((sortByKey SFile.year fs).map SFile.table)

/-- `re.match(r"^(.+?)(\d{4})([a-z])_cleaned\.csv$", name)` of src/merge.py
lines 96-103: the name decomposes as a non-empty prefix (the city code, free of
newlines since `.` does not cross them), four digits (the year), one lowercase
ASCII letter (the data type), and the literal suffix `_cleaned.csv`.  The
anchors pin the suffix to the end, so the decomposition is unique. -/
def parseFilename (name : String) : Option (String × Nat × Char) :=
  let cs := name.toList
  let m := cs.length
  if m < 18 then none
  else
    let pre := cs.take (m - 17)
    let ys := (cs.drop (m - 17)).take 4
    match cs.drop (m - 13) with
    | c :: tl =>
      if (∀ ch ∈ pre, ch ≠ Char.ofNat 10) ∧ (∀ ch ∈ ys, ch.isDigit = true)
          ∧ ('a' ≤ c ∧ c ≤ 'z') ∧ tl = "_cleaned.csv".toList
      then some (String.mk pre, digitsToNat ys, c)
      else none
    | [] => none

/-- The grouping of src/merge.py lines 95-127: parse every filename, keep the
matching ones in input order, group them under the key `(city_code, data_type)`
in a dict that preserves key insertion order, and sort each group's `(filename,
year)` entries ascending by year. -/
def addToGroups (acc : List ((String × Char) × List (String × Nat)))
    (x : (String × Char) × (String × Nat)) :
    List ((String × Char) × List (String × Nat)) :=
  match acc with
  | [] => [(x.1, [x.2])]
  | (k, fs) :: rest =>
    if k = x.1 then (k, fs ++ [x.2]) :: rest else (k, fs) :: addToGroups rest x

/-- `groupFiles` is the FileGrouper: from directory listing to the mapping
`(city_code, data_type) ↦ files sorted ascending by year`. -/
def groupFiles (names : List String) : List ((String × Char) × List (String × Nat)) :=
  let infos := names.filterMap (fun n =>
    (parseFilename n).map (fun v => ((v.1, v.2.2), (n, v.2.1))))
  (infos.foldl addToGroups []).map (fun g => (g.1, sortByKey Prod.snd g.2))

/-- One file to be read by `pd.read_csv` (src/merge.py line 132): reading
either yields a table or raises. -/
structure RFile where
  year : Nat
  read : Except String Table

/-- The read loop of src/merge.py lines 130-134: read each table in order; the
first raised exception propagates and aborts the group. -/
def readTables : List RFile → Except String (List Table)
  | [] => .ok []
  | f :: fs =>
    match f.read with
    | .error e => .error e
    | .ok t =>
      match readTables fs with
      | .error e => .error e
      | .ok ts => .ok (t :: ts)

/-- The per-group body of `merge_csv_files` with fallible reads: sort by year,
read every file (propagating the first failure), then concatenate and convert
as `mergeGroup` does. -/
def mergeGroupR (fs : List RFile) : Except String Table :=
  match readTables (sortByKey RFile.year fs) with
  | .error e => .error e
  | .ok ts =>
    .ok (applyDateConversion (concatTables ts)
      (detect_date_columns (tableColumns (concatTables ts))))

example : convert_japanese_date (some "2025年1月2日") = some "2025-01-02" := by decide
example : convert_japanese_date (some "2025年1月") = some "2025-01-01" := by decide
example : convert_japanese_date (some "2025/1/2") = some "2025-01-02" := by decide
example : convert_japanese_date (some "2025-1-2") = some "2025-01-02" := by decide
example : convert_japanese_date (some "不明") = some "不明" := by decide
example : convert_japanese_date (some " 不明") = some "不明" := by decide
example : convert_japanese_date (some "2025年1月2日(日)") = some "2025-01-02" := by decide
example : convert_japanese_date (some "") = none := by decide
example : convert_japanese_date none = none := by decide

example : parseFilename "oosk2020a_cleaned.csv" = some ("oosk", 2020, 'a') := by decide
example : parseFilename "notes.txt" = none := by decide
example : parseFilename "oosk2020A_cleaned.csv" = none := by decide
example :
    groupFiles ["oosk2024a_cleaned.csv", "oosk2020b_cleaned.csv", "oosk2020a_cleaned.csv"]
      = [(("oosk", 'a'),
            [("oosk2020a_cleaned.csv", 2020), ("oosk2024a_cleaned.csv", 2024)]),
         (("oosk", 'b'), [("oosk2020b_cleaned.csv", 2020)])] := by decide
example : detect_date_columns [⟨"x", [some "1234-x"]⟩] = ["x"] := by decide
example : hasDateKeyword "投票日付き" = true := by decide
example :
    mergeGroup [⟨2020, ⟨["日付"], [[some "不明"]]⟩⟩] = ⟨["日付"], [[none]]⟩ := by decide
example :
    mergeGroup [⟨2020, ⟨["日付", "n"], [[some "2025年1月2日", some "5"]]⟩⟩]
      = ⟨["日付", "n"], [[some "2025-01-02", some "5"]]⟩ := by decide
example :
    concatTables [⟨["a", "b"], [[some "1", some "2"]]⟩, ⟨["b", "c"], [[some "3", some "4"]]⟩]
      = ⟨["a", "b", "c"],
          [[some "1", some "2", none], [none, some "3", some "4"]]⟩ := by decide

lemma digit_bounds (c : Char) (h : c.isDigit = true) : 48 ≤ c.toNat ∧ c.toNat ≤ 57 := by
  simp only [Char.isDigit, ge_iff_le, Bool.and_eq_true, decide_eq_true_eq] at h
  exact ⟨UInt32.le_toNat_of_le (by decide) h.1, UInt32.toNat_le_of_le (by decide) h.2⟩

lemma ws_not_digit (c : Char) (h : isWs c = true) : c.isDigit = false := by
  simp only [isWs, Bool.or_eq_true, beq_iff_eq] at h
  rcases h with ((((h | h) | h) | h) | h) | h <;> subst h <;> decide

lemma digit_not_ws (c : Char) (h : c.isDigit = true) : isWs c = false := by
  cases hw : isWs c
  · rfl
  · rw [ws_not_digit c hw] at h; cases h

lemma spanDigits_split (ds r : List Char) (hd : ∀ c ∈ ds, c.isDigit = true)
    (hr : ∀ c, r.head? = some c → c.isDigit = false) :
    spanDigits (ds ++ r) = (ds, r) := by
  induction ds with
  | nil =>
    simp only [List.nil_append]
    cases r with
    | nil => rfl
    | cons c cs => simp [spanDigits, hr c rfl]
  | cons d ds ih =>
    have hdd : d.isDigit = true := hd d (List.mem_cons_self _ _)
    simp only [List.cons_append, spanDigits, hdd, if_true, List.append_eq,
      ih (fun c hc => hd c (List.mem_cons_of_mem _ hc))]

lemma lstrip_cons_of_not_ws (a : Char) (l : List Char) (ha : isWs a = false) :
    lstrip (a :: l) = a :: l := by
  simp [lstrip, List.dropWhile_cons, ha]

lemma rstrip_append (xs ys : List Char)
    (h : ∀ c, xs.getLast? = some c → isWs c = false) :
    rstrip (xs ++ ys) = xs ++ rstrip ys := by
  unfold rstrip
  rw [List.reverse_append, List.dropWhile_append]
  by_cases he : (ys.reverse.dropWhile isWs).isEmpty
  · rw [if_pos he]
    have h2 : ys.reverse.dropWhile isWs = [] := List.isEmpty_iff.mp he
    rw [h2, List.reverse_nil, List.append_nil]
    cases hx : xs.reverse with
    | nil =>
      have : xs = [] := by simpa using congrArg List.reverse hx
      simp [this]
    | cons a t =>
      have ha : isWs a = false := by
        apply h
        rw [← List.head?_reverse, hx]
        rfl
      rw [List.dropWhile_cons_of_neg (by simp [ha]), ← hx, List.reverse_reverse]
  · rw [if_neg he, List.reverse_append, List.reverse_reverse]

lemma rstrip_prefix (l : List Char) : rstrip l <+: l := by
  have h : (l.reverse.dropWhile isWs) <:+ l.reverse := List.dropWhile_suffix isWs
  have h2 := List.reverse_prefix.mpr h
  rwa [List.reverse_reverse] at h2

lemma rstrip_head? (l : List Char) (c : Char) (h : (rstrip l).head? = some c) :
    l.head? = some c := by
  obtain ⟨t, ht⟩ := rstrip_prefix l
  rw [← ht]
  cases hr : rstrip l with
  | nil => rw [hr] at h; cases h
  | cons a s =>
    rw [hr] at h
    simp only [List.head?_cons, Option.some.injEq] at h
    subst h
    simp

lemma pyStrip_structured (a : Char) (mid : List Char) (c : Char) (tail : List Char)
    (ha : isWs a = false) (hc : isWs c = false) :
    pyStrip (a :: (mid ++ c :: tail)) = a :: (mid ++ c :: rstrip tail) := by
  unfold pyStrip
  rw [lstrip_cons_of_not_ws a _ ha]
  have hshape : a :: (mid ++ c :: tail) = (a :: mid ++ [c]) ++ tail := by simp
  rw [hshape, rstrip_append]
  · simp
  · intro x hx
    have hlast : (a :: mid ++ [c]).getLast? = some c := List.getLast?_concat _
    rw [hlast] at hx
    cases hx
    exact hc

lemma digitsToNat_lt_100 (cs : List Char) (h1 : cs.length ≤ 2)
    (h : ∀ c ∈ cs, c.isDigit = true) : digitsToNat cs < 100 := by
  match cs with
  | [] => decide
  | [a] =>
    have := digit_bounds a (h a (by simp))
    simp only [digitsToNat, List.foldl]
    omega
  | [a, b] =>
    have ha := digit_bounds a (h a (by simp))
    have hb := digit_bounds b (h b (by simp))
    simp only [digitsToNat, List.foldl]
    omega
  | a :: b :: c :: t => simp at h1

lemma pad2_length (n : Nat) (h : n < 100) : (pad2 n).length = 2 := by
  interval_cases n <;> decide

lemma head?_cons_not_digit (c : Char) (hc : c.isDigit = false) (R : List Char) :
    ∀ x, (c :: R).head? = some x → x.isDigit = false := by
  intro x hx
  simp only [List.head?_cons, Option.some.injEq] at hx
  subst hx
  exact hc

lemma matchKanji_of (ys ms ds r : List Char)
    (hy4 : ys.length = 4) (hy : ∀ c ∈ ys, c.isDigit = true)
    (hm0 : ms ≠ []) (hm : ∀ c ∈ ms, c.isDigit = true)
    (hd0 : ds ≠ []) (hd : ∀ c ∈ ds, c.isDigit = true) :
    matchKanji (ys ++ '年' :: (ms ++ '月' :: (ds ++ '日' :: r)))
      = some (digitsToNat ys, digitsToNat ms, digitsToNat ds) := by
  have h1 := spanDigits_split ys ('年' :: (ms ++ '月' :: (ds ++ '日' :: r))) hy
    (head?_cons_not_digit '年' (by decide) _)
  have h2 := spanDigits_split ms ('月' :: (ds ++ '日' :: r)) hm
    (head?_cons_not_digit '月' (by decide) _)
  have h3 := spanDigits_split ds ('日' :: r) hd
    (head?_cons_not_digit '日' (by decide) _)
  have hm1 : 1 ≤ ms.length := List.length_pos.mpr hm0
  have hd1 : 1 ≤ ds.length := List.length_pos.mpr hd0
  unfold matchKanji
  rw [h1]
  dsimp only
  rw [if_pos ⟨rfl, hy4⟩, h2]
  dsimp only
  rw [if_pos ⟨rfl, hm1⟩, h3]
  dsimp only
  rw [if_pos ⟨rfl, hd1⟩]

lemma matchKanji_noday (ys ms : List Char)
    (hy4 : ys.length = 4) (hy : ∀ c ∈ ys, c.isDigit = true)
    (hm0 : ms ≠ []) (hm : ∀ c ∈ ms, c.isDigit = true) :
    matchKanji (ys ++ '年' :: (ms ++ ['月']))
      = some (digitsToNat ys, digitsToNat ms, 1) := by
  have h1 := spanDigits_split ys ('年' :: (ms ++ ['月'])) hy
    (head?_cons_not_digit '年' (by decide) _)
  have h2 : spanDigits (ms ++ ['月']) = (ms, ['月']) := spanDigits_split ms ['月'] hm
    (head?_cons_not_digit '月' (by decide) [])
  have hm1 : 1 ≤ ms.length := List.length_pos.mpr hm0
  unfold matchKanji
  rw [h1]
  dsimp only
  rw [if_pos ⟨rfl, hy4⟩, h2]
  dsimp only
  rw [if_pos ⟨rfl, hm1⟩]
  rfl

lemma matchKanji_sep (ys : List Char) (sep : Char) (R : List Char)
    (hy : ∀ c ∈ ys, c.isDigit = true) (hsep : sep.isDigit = false)
    (hne : sep ≠ '年') :
    matchKanji (ys ++ sep :: R) = none := by
  have h1 := spanDigits_split ys (sep :: R) hy (head?_cons_not_digit sep hsep _)
  unfold matchKanji
  rw [h1]
  dsimp only
  rw [if_neg (fun h => hne h.1)]

lemma matchSlash_of (ys ms ds r : List Char)
    (hy4 : ys.length = 4) (hy : ∀ c ∈ ys, c.isDigit = true)
    (hm0 : ms ≠ []) (hm : ∀ c ∈ ms, c.isDigit = true)
    (hd0 : ds ≠ []) (hd : ∀ c ∈ ds, c.isDigit = true)
    (hr : ∀ c, r.head? = some c → c.isDigit = false) :
    matchSlash (ys ++ '/' :: (ms ++ '/' :: (ds ++ r)))
      = some (digitsToNat ys, digitsToNat ms, digitsToNat ds) := by
  have h1 := spanDigits_split ys ('/' :: (ms ++ '/' :: (ds ++ r))) hy
    (head?_cons_not_digit '/' (by decide) _)
  have h2 := spanDigits_split ms ('/' :: (ds ++ r)) hm
    (head?_cons_not_digit '/' (by decide) _)
  have h3 := spanDigits_split ds r hd hr
  have hm1 : 1 ≤ ms.length := List.length_pos.mpr hm0
  have hd1 : 1 ≤ ds.length := List.length_pos.mpr hd0
  unfold matchSlash
  rw [h1]
  dsimp only
  rw [if_pos ⟨rfl, hy4⟩, h2]
  dsimp only
  rw [if_pos ⟨rfl, hm1⟩, h3]
  dsimp only
  rw [if_pos hd1]

lemma matchSlash_sep (ys : List Char) (sep : Char) (R : List Char)
    (hy : ∀ c ∈ ys, c.isDigit = true) (hsep : sep.isDigit = false)
    (hne : sep ≠ '/') :
    matchSlash (ys ++ sep :: R) = none := by
  have h1 := spanDigits_split ys (sep :: R) hy (head?_cons_not_digit sep hsep _)
  unfold matchSlash
  rw [h1]
  dsimp only
  rw [if_neg (fun h => hne h.1)]

lemma string_mk_cons_ne_empty (a : Char) (l : List Char) : String.mk (a :: l) ≠ "" := by
  intro h
  rw [String.ext_iff] at h
  simp at h

lemma matchHyphen_of (ys ms ds r : List Char)
    (hy4 : ys.length = 4) (hy : ∀ c ∈ ys, c.isDigit = true)
    (hm0 : ms ≠ []) (hm : ∀ c ∈ ms, c.isDigit = true)
    (hd0 : ds ≠ []) (hd : ∀ c ∈ ds, c.isDigit = true)
    (hr : ∀ c, r.head? = some c → c.isDigit = false) :
    matchHyphen (ys ++ '-' :: (ms ++ '-' :: (ds ++ r)))
      = some (digitsToNat ys, digitsToNat ms, digitsToNat ds) := by
  have h1 := spanDigits_split ys ('-' :: (ms ++ '-' :: (ds ++ r))) hy
    (head?_cons_not_digit '-' (by decide) _)
  have h2 := spanDigits_split ms ('-' :: (ds ++ r)) hm
    (head?_cons_not_digit '-' (by decide) _)
  have h3 := spanDigits_split ds r hd hr
  have hm1 : 1 ≤ ms.length := List.length_pos.mpr hm0
  have hd1 : 1 ≤ ds.length := List.length_pos.mpr hd0
  unfold matchHyphen
  rw [h1]
  dsimp only
  rw [if_pos ⟨rfl, hy4⟩, h2]
  dsimp only
  rw [if_pos ⟨rfl, hm1⟩, h3]
  dsimp only
  rw [if_pos hd1]

lemma convert_kanji_day (ys ms ds r : List Char)
    (hy4 : ys.length = 4) (hy : ∀ c ∈ ys, c.isDigit = true)
    (hm0 : ms ≠ []) (hm : ∀ c ∈ ms, c.isDigit = true)
    (hd0 : ds ≠ []) (hd : ∀ c ∈ ds, c.isDigit = true) :
    convert_japanese_date
        (some (String.mk (ys ++ '年' :: (ms ++ '月' :: (ds ++ '日' :: r)))))
      = some (fmtDate (digitsToNat ys) (digitsToNat ms) (digitsToNat ds)) := by
  obtain ⟨y1, ys', rfl⟩ : ∃ y1 ys', ys = y1 :: ys' := by
    cases ys with
    | nil => simp at hy4
    | cons a t => exact ⟨a, t, rfl⟩
  have hstrip : pyStrip (y1 :: (ys' ++ '年' :: (ms ++ '月' :: (ds ++ '日' :: r))))
      = y1 :: (ys' ++ '年' :: (ms ++ '月' :: (ds ++ '日' :: rstrip r))) := by
    have := pyStrip_structured y1 (ys' ++ '年' :: (ms ++ '月' :: ds)) '日' r
      (digit_not_ws y1 (hy y1 (by simp))) (by decide)
    simpa using this
  have hmatch := matchKanji_of (y1 :: ys') ms ds (rstrip r) hy4 hy hm0 hm hd0 hd
  unfold convert_japanese_date
  rw [List.cons_append]
  dsimp only
  rw [if_neg (string_mk_cons_ne_empty _ _)]
  dsimp only [String.toList]
  rw [hstrip]
  rw [show y1 :: (ys' ++ '年' :: (ms ++ '月' :: (ds ++ '日' :: rstrip r)))
      = (y1 :: ys') ++ '年' :: (ms ++ '月' :: (ds ++ '日' :: rstrip r)) from rfl]
  rw [hmatch]

lemma convert_kanji_noday (ys ms : List Char)
    (hy4 : ys.length = 4) (hy : ∀ c ∈ ys, c.isDigit = true)
    (hm0 : ms ≠ []) (hm : ∀ c ∈ ms, c.isDigit = true) :
    convert_japanese_date (some (String.mk (ys ++ '年' :: (ms ++ ['月']))))
      = some (fmtDate (digitsToNat ys) (digitsToNat ms) 1) := by
  obtain ⟨y1, ys', rfl⟩ : ∃ y1 ys', ys = y1 :: ys' := by
    cases ys with
    | nil => simp at hy4
    | cons a t => exact ⟨a, t, rfl⟩
  have hstrip : pyStrip (y1 :: (ys' ++ '年' :: (ms ++ ['月'])))
      = y1 :: (ys' ++ '年' :: (ms ++ ['月'])) := by
    have := pyStrip_structured y1 (ys' ++ '年' :: ms) '月' []
      (digit_not_ws y1 (hy y1 (by simp))) (by decide)
    simpa [rstrip] using this
  have hmatch := matchKanji_noday (y1 :: ys') ms hy4 hy hm0 hm
  unfold convert_japanese_date
  rw [List.cons_append]
  dsimp only
  rw [if_neg (string_mk_cons_ne_empty _ _)]
  dsimp only [String.toList]
  rw [hstrip]
  rw [show y1 :: (ys' ++ '年' :: (ms ++ ['月']))
      = (y1 :: ys') ++ '年' :: (ms ++ ['月']) from rfl]
  rw [hmatch]

lemma convert_slash (ys ms ds r : List Char)
    (hy4 : ys.length = 4) (hy : ∀ c ∈ ys, c.isDigit = true)
    (hm0 : ms ≠ []) (hm : ∀ c ∈ ms, c.isDigit = true)
    (hd0 : ds ≠ []) (hd : ∀ c ∈ ds, c.isDigit = true)
    (hr : ∀ c, r.head? = some c → c.isDigit = false) :
    convert_japanese_date (some (String.mk (ys ++ '/' :: (ms ++ '/' :: (ds ++ r)))))
      = some (fmtDate (digitsToNat ys) (digitsToNat ms) (digitsToNat ds)) := by
  obtain ⟨y1, ys', rfl⟩ : ∃ y1 ys', ys = y1 :: ys' := by
    cases ys with
    | nil => simp at hy4
    | cons a t => exact ⟨a, t, rfl⟩
  obtain ⟨ds', dl, rfl⟩ : ∃ ds' dl, ds = ds' ++ [dl] :=
    ((List.eq_nil_or_concat' ds).resolve_left hd0).imp (fun _ h => h)
  have hdl : dl.isDigit = true := hd dl (by simp)
  have hstrip : pyStrip (y1 :: (ys' ++ '/' :: (ms ++ '/' :: ((ds' ++ [dl]) ++ r))))
      = y1 :: (ys' ++ '/' :: (ms ++ '/' :: ((ds' ++ [dl]) ++ rstrip r))) := by
    have := pyStrip_structured y1 (ys' ++ '/' :: (ms ++ '/' :: ds')) dl r
      (digit_not_ws y1 (hy y1 (by simp))) (digit_not_ws dl hdl)
    simpa using this
  have hr' : ∀ c, (rstrip r).head? = some c → c.isDigit = false :=
    fun c hc => hr c (rstrip_head? r c hc)
  have hk := matchKanji_sep (y1 :: ys') '/' (ms ++ '/' :: ((ds' ++ [dl]) ++ rstrip r))
    hy (by decide) (by decide)
  have hs := matchSlash_of (y1 :: ys') ms (ds' ++ [dl]) (rstrip r)
    hy4 hy hm0 hm hd0 hd hr'
  unfold convert_japanese_date
  rw [List.cons_append]
  dsimp only
  rw [if_neg (string_mk_cons_ne_empty _ _)]
  dsimp only [String.toList]
  rw [hstrip]
  rw [show y1 :: (ys' ++ '/' :: (ms ++ '/' :: ((ds' ++ [dl]) ++ rstrip r)))
      = (y1 :: ys') ++ '/' :: (ms ++ '/' :: ((ds' ++ [dl]) ++ rstrip r)) from rfl]
  rw [hk, hs]

lemma convert_hyphen (ys ms ds r : List Char)
    (hy4 : ys.length = 4) (hy : ∀ c ∈ ys, c.isDigit = true)
    (hm0 : ms ≠ []) (hm : ∀ c ∈ ms, c.isDigit = true)
    (hd0 : ds ≠ []) (hd : ∀ c ∈ ds, c.isDigit = true)
    (hr : ∀ c, r.head? = some c → c.isDigit = false) :
    convert_japanese_date (some (String.mk (ys ++ '-' :: (ms ++ '-' :: (ds ++ r)))))
      = some (fmtDate (digitsToNat ys) (digitsToNat ms) (digitsToNat ds)) := by
  obtain ⟨y1, ys', rfl⟩ : ∃ y1 ys', ys = y1 :: ys' := by
    cases ys with
    | nil => simp at hy4
    | cons a t => exact ⟨a, t, rfl⟩
  obtain ⟨ds', dl, rfl⟩ : ∃ ds' dl, ds = ds' ++ [dl] :=
    ((List.eq_nil_or_concat' ds).resolve_left hd0).imp (fun _ h => h)
  have hdl : dl.isDigit = true := hd dl (by simp)
  have hstrip : pyStrip (y1 :: (ys' ++ '-' :: (ms ++ '-' :: ((ds' ++ [dl]) ++ r))))
      = y1 :: (ys' ++ '-' :: (ms ++ '-' :: ((ds' ++ [dl]) ++ rstrip r))) := by
    have := pyStrip_structured y1 (ys' ++ '-' :: (ms ++ '-' :: ds')) dl r
      (digit_not_ws y1 (hy y1 (by simp))) (digit_not_ws dl hdl)
    simpa using this
  have hr' : ∀ c, (rstrip r).head? = some c → c.isDigit = false :=
    fun c hc => hr c (rstrip_head? r c hc)
  have hk := matchKanji_sep (y1 :: ys') '-' (ms ++ '-' :: ((ds' ++ [dl]) ++ rstrip r))
    hy (by decide) (by decide)
  have hs := matchSlash_sep (y1 :: ys') '-' (ms ++ '-' :: ((ds' ++ [dl]) ++ rstrip r))
    hy (by decide) (by decide)
  have hh := matchHyphen_of (y1 :: ys') ms (ds' ++ [dl]) (rstrip r)
    hy4 hy hm0 hm hd0 hd hr'
  unfold convert_japanese_date
  rw [List.cons_append]
  dsimp only
  rw [if_neg (string_mk_cons_ne_empty _ _)]
  dsimp only [String.toList]
  rw [hstrip]
  rw [show y1 :: (ys' ++ '-' :: (ms ++ '-' :: ((ds' ++ [dl]) ++ rstrip r)))
      = (y1 :: ys') ++ '-' :: (ms ++ '-' :: ((ds' ++ [dl]) ++ rstrip r)) from rfl]
  rw [hk, hs, hh]

lemma convert_no_match (s : String) (hs : s ≠ "")
    (hk : matchKanji (pyStrip s.toList) = none)
    (hsl : matchSlash (pyStrip s.toList) = none)
    (hh : matchHyphen (pyStrip s.toList) = none) :
    convert_japanese_date (some s) = some (String.mk (pyStrip s.toList)) := by
  simp only [convert_japanese_date]
  rw [if_neg hs]
  simp only [hk, hsl, hh]

/-- C2: for every input string that is one of the three recognized date
patterns — `YYYY年M月D日` with the day optional and defaulting to 01, `YYYY/M/D`,
or `YYYY-M-D`, with a four-digit year and one- or two-digit month and day —
`convert_japanese_date` returns the ISO string `YYYY-MM-DD` with month and day
zero-padded to two digits; in particular `2025年1月2日` → `2025-01-02`,
`2025年1月` → `2025-01-01`, `2025/1/2` → `2025-01-02`, `2025-1-2` → `2025-01-02`. -/
theorem c2_normalizer_iso (ys ms ds : List Char)
    (hy4 : ys.length = 4) (hy : ∀ c ∈ ys, c.isDigit = true)
    (hm1 : 1 ≤ ms.length) (hm2 : ms.length ≤ 2) (hm : ∀ c ∈ ms, c.isDigit = true)
    (hd1 : 1 ≤ ds.length) (hd2 : ds.length ≤ 2) (hd : ∀ c ∈ ds, c.isDigit = true) :
    (convert_japanese_date
          (some (String.mk (ys ++ '年' :: (ms ++ '月' :: (ds ++ ['日'])))))
        = some (fmtDate (digitsToNat ys) (digitsToNat ms) (digitsToNat ds))
      ∧ convert_japanese_date (some (String.mk (ys ++ '年' :: (ms ++ ['月']))))
        = some (fmtDate (digitsToNat ys) (digitsToNat ms) 1)
      ∧ convert_japanese_date (some (String.mk (ys ++ '/' :: (ms ++ '/' :: ds))))
        = some (fmtDate (digitsToNat ys) (digitsToNat ms) (digitsToNat ds))
      ∧ convert_japanese_date (some (String.mk (ys ++ '-' :: (ms ++ '-' :: ds))))
        = some (fmtDate (digitsToNat ys) (digitsToNat ms) (digitsToNat ds)))
    ∧ (pad2 (digitsToNat ms)).length = 2
    ∧ (pad2 (digitsToNat ds)).length = 2
    ∧ pad2 1 = "01"
    ∧ convert_japanese_date (some "2025年1月2日") = some "2025-01-02"
    ∧ convert_japanese_date (some "2025年1月") = some "2025-01-01"
    ∧ convert_japanese_date (some "2025/1/2") = some "2025-01-02"
    ∧ convert_japanese_date (some "2025-1-2") = some "2025-01-02" := by
  have hm0 : ms ≠ [] := List.length_pos.mp hm1
  have hd0 : ds ≠ [] := List.length_pos.mp hd1
  have hrnil : ∀ c : Char, ([] : List Char).head? = some c → c.isDigit = false := by
    intro c hc
    cases hc
  refine ⟨⟨convert_kanji_day ys ms ds [] hy4 hy hm0 hm hd0 hd,
      convert_kanji_noday ys ms hy4 hy hm0 hm, ?_, ?_⟩,
    pad2_length _ (digitsToNat_lt_100 ms hm2 hm),
    pad2_length _ (digitsToNat_lt_100 ds hd2 hd),
    by decide, by decide, by decide, by decide, by decide⟩
  · have := convert_slash ys ms ds [] hy4 hy hm0 hm hd0 hd hrnil
    simpa using this
  · have := convert_hyphen ys ms ds [] hy4 hy hm0 hm hd0 hd hrnil
    simpa using this

/-- Witness for `c2_normalizer_iso` at `ys = "2025"`, `ms = "1"`, `ds = "2"`. -/
theorem c2_normalizer_iso_witness :
    convert_japanese_date
        (some (String.mk (['2', '0', '2', '5'] ++ '年' :: (['1'] ++ '月' :: (['2'] ++ ['日'])))))
      = some (fmtDate (digitsToNat ['2', '0', '2', '5']) (digitsToNat ['1'])
          (digitsToNat ['2'])) :=
  (c2_normalizer_iso ['2', '0', '2', '5'] ['1'] ['2'] (by decide) (by decide)
    (by decide) (by decide) (by decide) (by decide) (by decide) (by decide)).1.1

/-- C10: the three date regexes are matched with `re.match`, anchored only at
the start: a string whose prefix matches a pattern but carries trailing text
is converted to the ISO date parsed from the prefix, the trailing text being
discarded; e.g. `2025年1月2日(日)` → `2025-01-02`, not returned unchanged.
(For the slash and hyphen patterns the day field is the maximal digit run, so
the trailing text is what follows its last digit.) -/
theorem c10_prefix_anchored (ys ms ds rest : List Char)
    (hy4 : ys.length = 4) (hy : ∀ c ∈ ys, c.isDigit = true)
    (hm0 : ms ≠ []) (hm : ∀ c ∈ ms, c.isDigit = true)
    (hd0 : ds ≠ []) (hd : ∀ c ∈ ds, c.isDigit = true) :
    convert_japanese_date
        (some (String.mk (ys ++ '年' :: (ms ++ '月' :: (ds ++ '日' :: rest)))))
      = some (fmtDate (digitsToNat ys) (digitsToNat ms) (digitsToNat ds))
    ∧ ((∀ c, rest.head? = some c → c.isDigit = false) →
        convert_japanese_date
            (some (String.mk (ys ++ '/' :: (ms ++ '/' :: (ds ++ rest)))))
          = some (fmtDate (digitsToNat ys) (digitsToNat ms) (digitsToNat ds))
        ∧ convert_japanese_date
            (some (String.mk (ys ++ '-' :: (ms ++ '-' :: (ds ++ rest)))))
          = some (fmtDate (digitsToNat ys) (digitsToNat ms) (digitsToNat ds)))
    ∧ convert_japanese_date (some "2025年1月2日(日)") = some "2025-01-02"
    ∧ convert_japanese_date (some "2025年1月2日(日)") ≠ some "2025年1月2日(日)" :=
  ⟨convert_kanji_day ys ms ds rest hy4 hy hm0 hm hd0 hd,
    fun hr => ⟨convert_slash ys ms ds rest hy4 hy hm0 hm hd0 hd hr,
      convert_hyphen ys ms ds rest hy4 hy hm0 hm hd0 hd hr⟩,
    by decide, by decide⟩

/-- Witness for `c10_prefix_anchored` at `2025年1月2日` followed by `(日)`. -/
theorem c10_prefix_anchored_witness :
    convert_japanese_date
        (some (String.mk (['2', '0', '2', '5'] ++ '年' ::
          (['1'] ++ '月' :: (['2'] ++ '日' :: ['(', '日', ')'])))))
      = some (fmtDate (digitsToNat ['2', '0', '2', '5']) (digitsToNat ['1'])
          (digitsToNat ['2'])) :=
  (c10_prefix_anchored ['2', '0', '2', '5'] ['1'] ['2'] ['(', '日', ')']
    (by decide) (by decide) (by decide) (by decide) (by decide) (by decide)).1

/-- C6 counterexample: the non-empty, non-matching input `" 不明"` (with a
leading space) is NOT returned verbatim — `convert_japanese_date` strips it
and returns `"不明"`. -/
theorem c6_counterexample :
    convert_japanese_date (some " 不明") = some "不明"
    ∧ convert_japanese_date (some " 不明") ≠ some " 不明" :=
  ⟨by decide, by decide⟩

/-- C6 (amended): a missing or empty input yields a null result (not an
error); a non-empty input matching none of the three patterns is returned with
leading/trailing whitespace stripped but otherwise unchanged — in particular an
input without surrounding whitespace, such as `不明`, is returned verbatim. -/
theorem c6_lenient_policy (s : String) (hs : s ≠ "")
    (hk : matchKanji (pyStrip s.toList) = none)
    (hsl : matchSlash (pyStrip s.toList) = none)
    (hh : matchHyphen (pyStrip s.toList) = none) :
    convert_japanese_date none = none
    ∧ convert_japanese_date (some "") = none
    ∧ convert_japanese_date (some s) = some (String.mk (pyStrip s.toList))
    ∧ convert_japanese_date (some "不明") = some "不明" :=
  ⟨rfl, by decide, convert_no_match s hs hk hsl hh, by decide⟩

/-- Witness for `c6_lenient_policy` at `s = "不明"`. -/
theorem c6_lenient_policy_witness :
    convert_japanese_date (some "不明") = some (String.mk (pyStrip "不明".toList)) :=
  (c6_lenient_policy "不明" (by decide) (by decide) (by decide) (by decide)).2.2.1

/-- C3 counterexample: the single-column table named `日付` (a date column by
keyword) holding the non-matching value `不明` merges to a table holding a
missing value: the conversion step (normalization followed by datetime
coercion) is NOT a no-op on the non-matching value. -/
theorem c3_counterexample :
    mergeGroup [⟨2020, ⟨["日付"], [[some "不明"]]⟩⟩] = ⟨["日付"], [[none]]⟩
    ∧ mergeGroup [⟨2020, ⟨["日付"], [[some "不明"]]⟩⟩] ≠ ⟨["日付"], [[some "不明"]]⟩
    ∧ matchKanji "不明".toList = none
    ∧ matchSlash "不明".toList = none
    ∧ matchHyphen "不明".toList = none :=
  ⟨by decide, by decide, by decide, by decide, by decide⟩

/-- C3 (amended): on a value matching none of the three date patterns, the
cell-wise normalization alone is a no-op (up to whitespace stripping), but the
subsequent datetime coercion (`errors="coerce"`) replaces any value it cannot
parse as a date with a missing value; such values therefore end up missing in
the output table, not unchanged. -/
theorem c3_coercion_not_noop (v : String) (hv : v ≠ "")
    (hk : matchKanji (pyStrip v.toList) = none)
    (hsl : matchSlash (pyStrip v.toList) = none)
    (hh : matchHyphen (pyStrip v.toList) = none)
    (hiso : to_datetime_cell (some (String.mk (pyStrip v.toList))) = none) :
    convert_japanese_date (some v) = some (String.mk (pyStrip v.toList))
    ∧ dateCell (some v) = none := by
  have h := convert_no_match v hv hk hsl hh
  refine ⟨h, ?_⟩
  show to_datetime_cell (convert_japanese_date (some v)) = none
  rw [h, hiso]

/-- Witness for `c3_coercion_not_noop` at `v = "不明"`. -/
theorem c3_coercion_not_noop_witness :
    dateCell (some "不明") = none :=
  (c3_coercion_not_noop "不明" (by decide) (by decide) (by decide) (by decide)
    (by decide)).2

/-- C4 counterexample: the column named `x` (no keyword) with the single value
`1234-x` is classified date-like although that value matches none of the three
date patterns of the normalizer — the sample test is a substring search for
four digits plus a separator, not a match of the three patterns. -/
theorem c4_counterexample :
    detect_date_columns [⟨"x", [some "1234-x"]⟩] = ["x"]
    ∧ hasDateKeyword "x" = false
    ∧ matchKanji "1234-x".toList = none
    ∧ matchSlash "1234-x".toList = none
    ∧ matchHyphen "1234-x".toList = none :=
  ⟨by decide, by decide, by decide, by decide, by decide⟩

/-- C4 (amended): a column whose name contains no date keyword is classified
date-like iff among its first ten non-missing values some value contains,
anywhere in it, four consecutive digits followed by `年`, `/` or `-` (the
substring search of src/merge.py lines 71-72 — weaker than requiring a value
that matches one of the three full date patterns). -/
theorem c4_sample_detection (df : List Column) (c : Column) (hc : c ∈ df)
    (hnd : (df.map Column.name).Nodup)
    (hk : hasDateKeyword c.name = false) :
    c.name ∈ detect_date_columns df
      ↔ ∃ v ∈ firstTenNonNull c.values, containsDatePat v.toList = true := by
  constructor
  · intro h
    simp only [detect_date_columns, List.mem_map] at h
    obtain ⟨c', hc', hname⟩ := h
    rw [List.mem_filter] at hc'
    have hcc : c' = c := List.inj_on_of_nodup_map hnd hc'.1 hc hname
    subst hcc
    have h2 := hc'.2
    rw [colIsDate, hk, Bool.false_or, List.any_eq_true] at h2
    exact h2
  · intro h
    obtain ⟨v, hv, hpat⟩ := h
    simp only [detect_date_columns, List.mem_map]
    refine ⟨c, List.mem_filter.mpr ⟨hc, ?_⟩, rfl⟩
    rw [colIsDate, hk, Bool.false_or, List.any_eq_true]
    exact ⟨v, hv, hpat⟩

/-- Witness for `c4_sample_detection`: the keyword-free column `x` with value
`1234-x` is detected because of the substring test. -/
theorem c4_sample_detection_witness :
    (⟨"x", [some "1234-x"]⟩ : Column).name
      ∈ detect_date_columns [⟨"x", [some "1234-x"]⟩] :=
  (c4_sample_detection [⟨"x", [some "1234-x"]⟩] ⟨"x", [some "1234-x"]⟩
    (by decide) (by decide) (by decide)).mpr (by decide)

/-- C9: a column whose name contains a date keyword — the native keywords
`日付`, `年月日`, `日時`, or `date` in any of its listed case variants `date`,
`Date`, `DATE` — is always classified date-like by `detect_date_columns`,
whatever its sampled values. -/
theorem c9_keyword_always_date (df : List Column) (c : Column) (hc : c ∈ df)
    (hk : containsSub "日付".toList c.name.toList = true
        ∨ containsSub "年月日".toList c.name.toList = true
        ∨ containsSub "日時".toList c.name.toList = true
        ∨ containsSub "date".toList c.name.toList = true
        ∨ containsSub "Date".toList c.name.toList = true
        ∨ containsSub "DATE".toList c.name.toList = true) :
    c.name ∈ detect_date_columns df := by
  have hkey : hasDateKeyword c.name = true := by
    rw [hasDateKeyword, List.any_eq_true]
    rcases hk with h | h | h | h | h | h
    · exact ⟨"日付", by decide, h⟩
    · exact ⟨"年月日", by decide, h⟩
    · exact ⟨"日時", by decide, h⟩
    · exact ⟨"date", by decide, h⟩
    · exact ⟨"Date", by decide, h⟩
    · exact ⟨"DATE", by decide, h⟩
  simp only [detect_date_columns, List.mem_map]
  exact ⟨c, List.mem_filter.mpr ⟨hc, by rw [colIsDate, hkey, Bool.true_or]⟩, rfl⟩

lemma perm_insertByKey {α : Type} (key : α → Nat) (a : α) (l : List α) :
    (insertByKey key a l).Perm (a :: l) := by
  induction l with
  | nil => rfl
  | cons b bs ih =>
    simp only [insertByKey]
    by_cases h : key a < key b
    · rw [if_pos h]
    · rw [if_neg h]
      exact (ih.cons b).trans (List.Perm.swap a b bs)

lemma sortByKey_perm {α : Type} (key : α → Nat) (l : List α) :
    (sortByKey key l).Perm l := by
  induction l with
  | nil => rfl
  | cons a as ih =>
    have h1 : sortByKey key (a :: as) = insertByKey key a (sortByKey key as) := rfl
    rw [h1]
    exact (perm_insertByKey key a _).trans (ih.cons a)

lemma sorted_insertByKey {α : Type} (key : α → Nat) (a : α) (l : List α)
    (h : l.Sorted (fun x y => key x ≤ key y)) :
    (insertByKey key a l).Sorted (fun x y => key x ≤ key y) := by
  induction l with
  | nil => simp [insertByKey]
  | cons b bs ih =>
    have h1 := List.sorted_cons.mp h
    simp only [insertByKey]
    by_cases hc : key a < key b
    · rw [if_pos hc, List.sorted_cons]
      refine ⟨?_, h⟩
      intro x hx
      rcases List.mem_cons.mp hx with rfl | hx
      · exact Nat.le_of_lt hc
      · exact Nat.le_trans (Nat.le_of_lt hc) (h1.1 x hx)
    · rw [if_neg hc, List.sorted_cons]
      refine ⟨?_, ih h1.2⟩
      intro x hx
      have hx' := (perm_insertByKey key a bs).mem_iff.mp hx
      rcases List.mem_cons.mp hx' with rfl | hx'
      · exact Nat.le_of_not_lt hc
      · exact h1.1 x hx'

lemma sortByKey_sorted {α : Type} (key : α → Nat) (l : List α) :
    (sortByKey key l).Sorted (fun x y => key x ≤ key y) := by
  induction l with
  | nil => simp [sortByKey]
  | cons a as ih => exact sorted_insertByKey key a _ ih

lemma sortByKey_eq_of_perm {α : Type} (key : α → Nat) {l l' : List α}
    (hp : l.Perm l') (hnd : l.Pairwise (fun a b => key a ≠ key b)) :
    sortByKey key l = sortByKey key l' := by
  have p1 := sortByKey_perm key l
  have p2 := sortByKey_perm key l'
  have hperm : (sortByKey key l).Perm (sortByKey key l') := p1.trans (hp.trans p2.symm)
  have hnd1 : (sortByKey key l).Pairwise (fun a b => key a ≠ key b) :=
    (List.Perm.pairwise_iff (fun h => Ne.symm h) p1).mpr hnd
  have hnd2 : (sortByKey key l').Pairwise (fun a b => key a ≠ key b) :=
    (List.Perm.pairwise_iff (fun h => Ne.symm h) (hp.trans p2.symm)).mp hnd
  have s1 : (sortByKey key l).Pairwise (fun a b => key a < key b) :=
    List.Pairwise.imp₂ (fun _ _ h1 h2 => Nat.lt_of_le_of_ne h1 h2)
      (sortByKey_sorted key l) hnd1
  have s2 : (sortByKey key l').Pairwise (fun a b => key a < key b) :=
    List.Pairwise.imp₂ (fun _ _ h1 h2 => Nat.lt_of_le_of_ne h1 h2)
      (sortByKey_sorted key l') hnd2
  haveI : IsAntisymm α (fun a b : α => key a < key b) :=
    ⟨fun _ _ h1 h2 => absurd h1 (Nat.lt_asymm h2)⟩
  exact List.eq_of_perm_of_sorted hperm s1 s2

/-- Witness for `c9_keyword_always_date`: a column named `投票日付` whose only
value `junk` is nothing like a date is still classified date-like. -/
theorem c9_keyword_always_date_witness :
    (⟨"投票日付", [some "junk"]⟩ : Column).name
      ∈ detect_date_columns [⟨"投票日付", [some "junk"]⟩] :=
  c9_keyword_always_date [⟨"投票日付", [some "junk"]⟩] ⟨"投票日付", [some "junk"]⟩
    (by decide) (Or.inl (by decide))

end Merge

namespace Merge

lemma addToGroups_pres {Q : (String × Char) → (String × Nat) → Prop}
    (acc : List ((String × Char) × List (String × Nat)))
    (x : (String × Char) × (String × Nat))
    (hacc : ∀ g ∈ acc, ∀ f ∈ g.2, Q g.1 f) (hx : Q x.1 x.2) :
    ∀ g ∈ addToGroups acc x, ∀ f ∈ g.2, Q g.1 f := by
  induction acc with
  | nil =>
    intro g hg f hf
    simp only [addToGroups, List.mem_singleton] at hg
    subst hg
    simp only [List.mem_singleton] at hf
    subst hf
    exact hx
  | cons p rest ih =>
    obtain ⟨k, fs⟩ := p
    intro g hg f hf
    simp only [addToGroups] at hg
    by_cases hk : k = x.1
    · rw [if_pos hk] at hg
      rcases List.mem_cons.mp hg with rfl | hg
      · rcases List.mem_append.mp hf with hf | hf
        · exact hacc (k, fs) (List.mem_cons_self _ _) f hf
        · rw [List.mem_singleton] at hf
          subst hf
          rw [hk]
          exact hx
      · exact hacc g (List.mem_cons_of_mem _ hg) f hf
    · rw [if_neg hk] at hg
      rcases List.mem_cons.mp hg with rfl | hg
      · exact hacc (k, fs) (List.mem_cons_self _ _) f hf
      · exact ih (fun g' hg' => hacc g' (List.mem_cons_of_mem _ hg')) g hg f hf

lemma foldl_addToGroups_pres {Q : (String × Char) → (String × Nat) → Prop}
    (infos : List ((String × Char) × (String × Nat)))
    (acc : List ((String × Char) × List (String × Nat)))
    (hacc : ∀ g ∈ acc, ∀ f ∈ g.2, Q g.1 f)
    (hin : ∀ x ∈ infos, Q x.1 x.2) :
    ∀ g ∈ infos.foldl addToGroups acc, ∀ f ∈ g.2, Q g.1 f := by
  induction infos generalizing acc with
  | nil => exact hacc
  | cons x xs ih =>
    exact ih (addToGroups acc x)
      (addToGroups_pres acc x hacc (hin x (List.mem_cons_self _ _)))
      (fun y hy => hin y (List.mem_cons_of_mem _ hy))

lemma groupFiles_mem_parse (names : List String) :
    ∀ g ∈ groupFiles names, ∀ f ∈ g.2,
      parseFilename f.1 = some (g.1.1, f.2, g.1.2) := by
  intro g hg f hf
  simp only [groupFiles, List.mem_map] at hg
  obtain ⟨g0, hg0, rfl⟩ := hg
  have hf0 : f ∈ g0.2 := (sortByKey_perm Prod.snd g0.2).mem_iff.mp hf
  refine @foldl_addToGroups_pres
    (fun k f => parseFilename f.1 = some (k.1, f.2, k.2)) _ [] ?_ ?_ g0 hg0 f hf0
  · intro g hg
    cases hg
  · intro x hx
    simp only [List.mem_filterMap] at hx
    obtain ⟨n, hn, hparse⟩ := hx
    rw [Option.map_eq_some'] at hparse
    obtain ⟨v, hv, hxe⟩ := hparse
    subst hxe
    simpa using hv

lemma groupFiles_sorted (names : List String) :
    ∀ g ∈ groupFiles names, g.2.Sorted (fun a b => a.2 ≤ b.2) := by
  intro g hg
  simp only [groupFiles, List.mem_map] at hg
  obtain ⟨g0, _, rfl⟩ := hg
  exact sortByKey_sorted Prod.snd g0.2

/-- C5: `groupFiles` maps each directory listing to a mapping from
`(entityCode, category)` to the files whose names match
`<entityCode><4-digit year><lowercase category>_cleaned.csv`: every grouped
file parses to exactly its group's key and its recorded year, every group is
ordered ascending by year, files that do not match the pattern appear in no
group (silent exclusion), and on the listing `{oosk2020a_cleaned.csv,
oosk2024a_cleaned.csv, oosk2020b_cleaned.csv}` it yields exactly the two groups
`(oosk,a) ↦ [2020, 2024]` and `(oosk,b) ↦ [2020]`. -/
theorem c5_file_grouping (names : List String) :
    (∀ g ∈ groupFiles names, ∀ f ∈ g.2,
        parseFilename f.1 = some (g.1.1, f.2, g.1.2))
    ∧ (∀ g ∈ groupFiles names, g.2.Sorted (fun a b => a.2 ≤ b.2))
    ∧ (∀ n, parseFilename n = none →
        ∀ g ∈ groupFiles names, ∀ f ∈ g.2, f.1 ≠ n)
    ∧ groupFiles ["oosk2020a_cleaned.csv", "oosk2024a_cleaned.csv", "oosk2020b_cleaned.csv"]
      = [(("oosk", 'a'),
            [("oosk2020a_cleaned.csv", 2020), ("oosk2024a_cleaned.csv", 2024)]),
         (("oosk", 'b'), [("oosk2020b_cleaned.csv", 2020)])] := by
  refine ⟨groupFiles_mem_parse names, groupFiles_sorted names, ?_, by decide⟩
  intro n hn g hg f hf heq
  have h := groupFiles_mem_parse names g hg f hf
  rw [heq, hn] at h
  cases h

/-- Witness for `c5_file_grouping`: the parse conjunct applied to the concrete
listing and its first group member. -/
theorem c5_file_grouping_witness :
    parseFilename "oosk2020a_cleaned.csv" = some ("oosk", 2020, 'a') :=
  (c5_file_grouping
      ["oosk2020a_cleaned.csv", "oosk2024a_cleaned.csv", "oosk2020b_cleaned.csv"]).1
    (("oosk", 'a'), [("oosk2020a_cleaned.csv", 2020), ("oosk2024a_cleaned.csv", 2024)])
    (by decide) ("oosk2020a_cleaned.csv", 2020) (by decide)

end Merge

namespace Merge

lemma lookupCell_not_mem (cols : List String) (r : List (Option String))
    (c : String) (hc : c ∉ cols) : lookupCell cols r c = none := by
  induction cols generalizing r with
  | nil => cases r <;> rfl
  | cons c' cs ih =>
    cases r with
    | nil => rfl
    | cons v vs =>
      have hne : c' ≠ c := fun h => hc (by rw [← h]; exact List.mem_cons_self _ _)
      simp only [lookupCell, if_neg hne]
      exact ih vs (fun h => hc (List.mem_cons_of_mem _ h))

lemma acc_sub_foldl_unionStep (ts : List Table) (acc : List String) :
    acc ⊆ ts.foldl unionStep acc := by
  induction ts generalizing acc with
  | nil => exact fun x h => h
  | cons t ts ih =>
    exact fun x hx => ih (unionStep acc t) (List.mem_append_left _ hx)

lemma cols_sub_foldl_unionStep (ts : List Table) (acc : List String)
    (t : Table) (ht : t ∈ ts) : t.cols ⊆ ts.foldl unionStep acc := by
  induction ts generalizing acc with
  | nil => cases ht
  | cons u us ih =>
    rcases List.mem_cons.mp ht with rfl | ht
    · intro c hc
      apply acc_sub_foldl_unionStep us (unionStep acc t)
      by_cases hm : c ∈ acc
      · exact List.mem_append_left _ hm
      · exact List.mem_append_right _
          (List.mem_filter.mpr ⟨hc, by simpa using hm⟩)
    · exact ih (unionStep acc u) ht

lemma cols_sub_unionCols (ts : List Table) (t : Table) (ht : t ∈ ts) :
    t.cols ⊆ unionCols ts :=
  cols_sub_foldl_unionStep ts [] t ht

/-- C1: for every group of source files with pairwise distinct years, the
concatenation stage yields the same table for every input ordering
(permutation invariance, i.e. the filesystem order does not matter), the files
are processed in ascending year order, the merged rows are exactly each file's
rows in file order — each row realigned to the merged column list via
`lookupCell` — and the merged columns are the union of the files' columns: a
column absent from some file reads as a missing value on that file's rows. -/
theorem c1_concat_year_order (fs : List SFile)
    (hnd : (fs.map SFile.year).Nodup) :
    (∀ fs', fs.Perm fs' → mergedRaw fs = mergedRaw fs')
    ∧ (sortByKey SFile.year fs).Sorted (fun a b => a.year ≤ b.year)
    ∧ (mergedRaw fs).rows
      = ((sortByKey SFile.year fs).map (fun f =>
          f.table.rows.map (fun r =>
            (mergedRaw fs).cols.map (fun c => lookupCell f.table.cols r c)))).flatten
    ∧ (∀ f ∈ fs, ∀ c ∈ f.table.cols, c ∈ (mergedRaw fs).cols)
    ∧ (∀ f ∈ fs, ∀ c, c ∉ f.table.cols → ∀ r, lookupCell f.table.cols r c = none) := by
  have hpw : fs.Pairwise (fun a b => a.year ≠ b.year) := List.pairwise_map.mp hnd
  refine ⟨?_, sortByKey_sorted SFile.year fs, ?_, ?_, ?_⟩
  · intro fs' hp
    unfold mergedRaw
    rw [sortByKey_eq_of_perm SFile.year hp hpw]
  · show (concatTables ((sortByKey SFile.year fs).map SFile.table)).rows = _
    simp only [concatTables, List.map_map]
    rfl
  · intro f hf c hc
    apply cols_sub_unionCols ((sortByKey SFile.year fs).map SFile.table) f.table
    · exact List.mem_map_of_mem _ ((sortByKey_perm SFile.year fs).mem_iff.mpr hf)
    · exact hc
  · intro f _ c hc r
    exact lookupCell_not_mem f.table.cols r c hc

/-- Witness for `c1_concat_year_order`: two files given in descending year
order merge identically to the same files in ascending order. -/
theorem c1_concat_year_order_witness :
    mergedRaw [⟨2024, ⟨["a"], [[some "x"]]⟩⟩, ⟨2020, ⟨["a"], [[some "y"]]⟩⟩]
      = mergedRaw [⟨2020, ⟨["a"], [[some "y"]]⟩⟩, ⟨2024, ⟨["a"], [[some "x"]]⟩⟩] :=
  (c1_concat_year_order
      [⟨2024, ⟨["a"], [[some "x"]]⟩⟩, ⟨2020, ⟨["a"], [[some "y"]]⟩⟩] (by decide)).1
    [⟨2020, ⟨["a"], [[some "y"]]⟩⟩, ⟨2024, ⟨["a"], [[some "x"]]⟩⟩] (by decide)

end Merge

namespace Merge

lemma lookupCell_map_self (cols : List String) (r : List (Option String))
    (hnd : cols.Nodup) (hlen : r.length = cols.length) :
    cols.map (fun c => lookupCell cols r c) = r := by
  induction cols generalizing r with
  | nil =>
    cases r with
    | nil => rfl
    | cons v vs => simp at hlen
  | cons c cs ih =>
    cases r with
    | nil => simp at hlen
    | cons v vs =>
      rw [List.nodup_cons] at hnd
      simp only [List.map_cons]
      congr 1
      · show lookupCell (c :: cs) (v :: vs) c = v
        simp [lookupCell]
      · have hstep : ∀ c' ∈ cs, lookupCell (c :: cs) (v :: vs) c' = lookupCell cs vs c' := by
          intro c' hc'
          have hne : c ≠ c' := fun h => hnd.1 (h ▸ hc')
          simp [lookupCell, hne]
        rw [List.map_congr_left hstep]
        exact ih vs hnd.2 (by simpa using hlen)

lemma concatTables_single (t : Table) (h1 : t.cols.Nodup)
    (h2 : ∀ r ∈ t.rows, r.length = t.cols.length) :
    concatTables [t] = t := by
  obtain ⟨cols, rows⟩ := t
  have hu : unionCols [Table.mk cols rows] = cols := by
    simp [unionCols, unionStep]
  unfold concatTables
  rw [hu]
  simp only [List.map_cons, List.map_nil, List.flatten_cons, List.flatten_nil,
    List.append_nil]
  have hrows : ∀ r ∈ rows, cols.map (fun c => lookupCell cols r c) = r :=
    fun r hr => lookupCell_map_self cols r h1 (h2 r hr)
  rw [List.map_congr_left hrows]
  simp

lemma lookupCell_transformRow (cols dcols : List String)
    (r : List (Option String)) (c : String) (hc : c ∉ dcols) :
    lookupCell cols (transformRow cols dcols r) c = lookupCell cols r c := by
  induction cols generalizing r with
  | nil => cases r <;> rfl
  | cons c' cs ih =>
    cases r with
    | nil => rfl
    | cons v vs =>
      show lookupCell (c' :: cs)
        ((if c' ∈ dcols then dateCell v else v) :: transformRow cs dcols vs) c
        = lookupCell (c' :: cs) (v :: vs) c
      by_cases hcc : c' = c
      · subst hcc
        show (if c' = c' then (if c' ∈ dcols then dateCell v else v)
            else lookupCell cs (transformRow cs dcols vs) c')
          = (if c' = c' then v else lookupCell cs vs c')
        rw [if_pos rfl, if_pos rfl, if_neg hc]
      · simp only [lookupCell, if_neg hcc]
        exact ih vs

/-- C7: a group containing exactly one source file merges to that file's table
with its detected date columns converted: the merged table equals
`applyDateConversion` of the file's table, column names and row count are
unchanged, and every cell under a column that is not date-like is untouched. -/
theorem c7_single_file_roundtrip (f : SFile)
    (h1 : f.table.cols.Nodup)
    (h2 : ∀ r ∈ f.table.rows, r.length = f.table.cols.length) :
    mergeGroup [f]
      = applyDateConversion f.table (detect_date_columns (tableColumns f.table))
    ∧ (mergeGroup [f]).cols = f.table.cols
    ∧ (mergeGroup [f]).rows.length = f.table.rows.length
    ∧ (∀ c, c ∉ detect_date_columns (tableColumns f.table) →
        ∀ r, lookupCell f.table.cols
            (transformRow f.table.cols (detect_date_columns (tableColumns f.table)) r) c
          = lookupCell f.table.cols r c) := by
  have hsingle : concatTables [f.table] = f.table := concatTables_single f.table h1 h2
  have hm : mergeGroup [f]
      = applyDateConversion f.table (detect_date_columns (tableColumns f.table)) := by
    show applyDateConversion (concatTables [f.table])
      (detect_date_columns (tableColumns (concatTables [f.table]))) = _
    rw [hsingle]
  refine ⟨hm, ?_, ?_, ?_⟩
  · rw [hm]
    rfl
  · rw [hm]
    exact List.length_map _ _
  · intro c hc r
    exact lookupCell_transformRow f.table.cols _ r c hc

/-- Witness for `c7_single_file_roundtrip`: a one-file group whose table has a
date column and a plain column. -/
theorem c7_single_file_roundtrip_witness :
    mergeGroup [⟨2020, ⟨["日付", "n"], [[some "2025年1月2日", some "5"]]⟩⟩]
      = applyDateConversion ⟨["日付", "n"], [[some "2025年1月2日", some "5"]]⟩
          (detect_date_columns
            (tableColumns ⟨["日付", "n"], [[some "2025年1月2日", some "5"]]⟩)) :=
  (c7_single_file_roundtrip ⟨2020, ⟨["日付", "n"], [[some "2025年1月2日", some "5"]]⟩⟩
    (by decide) (by decide)).1

end Merge

namespace Merge

lemma readTables_error (fs : List RFile) (f : RFile) (hf : f ∈ fs)
    (e : String) (he : f.read = Except.error e) :
    ∃ e', readTables fs = Except.error e' := by
  induction fs with
  | nil => cases hf
  | cons g gs ih =>
    rcases List.mem_cons.mp hf with rfl | hf
    · exact ⟨e, by simp [readTables, he]⟩
    · cases hg : g.read with
      | error e' => exact ⟨e', by simp [readTables, hg]⟩
      | ok t =>
        obtain ⟨e', he'⟩ := ih hf
        exact ⟨e', by simp [readTables, hg, he']⟩

lemma readTables_ok_mem (fs : List RFile) (ts : List Table)
    (h : readTables fs = Except.ok ts) :
    ∀ f ∈ fs, ∃ tb, f.read = Except.ok tb := by
  induction fs generalizing ts with
  | nil => intro f hf; cases hf
  | cons g gs ih =>
    intro f hf
    cases hg : g.read with
    | error e => simp [readTables, hg] at h
    | ok t =>
      simp only [readTables, hg] at h
      cases hr : readTables gs with
      | error e => rw [hr] at h; cases h
      | ok ts' =>
        rcases List.mem_cons.mp hf with rfl | hf
        · exact ⟨t, hg⟩
        · exact ih ts' hr f hf

lemma readTables_ok_sum (fs : List RFile) (ts : List Table)
    (h : readTables fs = Except.ok ts) :
    (ts.map (fun t => t.rows.length)).sum
      = (fs.map (fun f =>
          match f.read with
          | Except.ok tb => tb.rows.length
          | Except.error _ => 0)).sum := by
  induction fs generalizing ts with
  | nil =>
    simp only [readTables] at h
    cases h
    simp
  | cons g gs ih =>
    cases hg : g.read with
    | error e => simp [readTables, hg] at h
    | ok t =>
      simp only [readTables, hg] at h
      cases hr : readTables gs with
      | error e => rw [hr] at h; cases h
      | ok ts' =>
        rw [hr] at h
        cases h
        simp only [List.map_cons, List.sum_cons, hg, ih ts' hr]

lemma concatTables_rowcount (ts : List Table) :
    (concatTables ts).rows.length = (ts.map (fun t => t.rows.length)).sum := by
  unfold concatTables
  simp only [List.length_flatten, List.map_map]
  congr 1
  exact List.map_congr_left (fun t _ => List.length_map _ _)

/-- C8: a source file whose read fails aborts its group's merge — some read
error propagates as the group's result — and when the merge succeeds no file
was skipped: every file's read succeeded and the merged row count is the sum
of the files' row counts, so no file's rows are silently omitted. -/
theorem c8_read_failure_propagates (fs : List RFile) :
    ((∃ f ∈ fs, ∃ e, f.read = Except.error e) →
      ∃ e, mergeGroupR fs = Except.error e)
    ∧ (∀ t, mergeGroupR fs = Except.ok t →
        (∀ f ∈ fs, ∃ tb, f.read = Except.ok tb)
        ∧ t.rows.length
          = (fs.map (fun f =>
              match f.read with
              | Except.ok tb => tb.rows.length
              | Except.error _ => 0)).sum) := by
  constructor
  · intro h
    obtain ⟨f, hf, e, he⟩ := h
    have hf' : f ∈ sortByKey RFile.year fs :=
      (sortByKey_perm RFile.year fs).mem_iff.mpr hf
    obtain ⟨e', he'⟩ := readTables_error _ f hf' e he
    exact ⟨e', by simp [mergeGroupR, he']⟩
  · intro t ht
    cases hr : readTables (sortByKey RFile.year fs) with
    | error e => simp [mergeGroupR, hr] at ht
    | ok ts =>
      simp only [mergeGroupR, hr, Except.ok.injEq] at ht
      subst ht
      constructor
      · intro f hf
        exact readTables_ok_mem _ ts hr f
          ((sortByKey_perm RFile.year fs).mem_iff.mpr hf)
      · have h1 : (applyDateConversion (concatTables ts)
            (detect_date_columns (tableColumns (concatTables ts)))).rows.length
            = (concatTables ts).rows.length := List.length_map _ _
        rw [h1, concatTables_rowcount, readTables_ok_sum _ ts hr]
        exact List.Perm.sum_eq ((sortByKey_perm RFile.year fs).map _)

/-- Witness for `c8_read_failure_propagates`: a one-file group whose read
raises produces an error, not a merged table. -/
theorem c8_read_failure_propagates_witness :
    ∃ e, mergeGroupR [⟨2020, Except.error "io error"⟩] = Except.error e :=
  (c8_read_failure_propagates [⟨2020, Except.error "io error"⟩]).1
    ⟨⟨2020, Except.error "io error"⟩, List.mem_cons_self _ _, "io error", rfl⟩

end Merge
